import Mathlib

/-!
Shallow embedding of the Vulkan-tutorial bootstrap program (`src/main.rs`).

The program's pure decision algorithms are translated directly:
queue-family resolution, physical-device selection, swapchain format /
present-mode / extent / image-count / sharing-mode negotiation, the
validation-layer availability check, and the fixed-order resource teardown.
Driver-owned handles are modelled as plain values; driver queries
(`get_physical_device_*`, `get_physical_device_surface_support`) become
fields of a `PhysicalDevice` record describing what the driver would report.
Fallible operations that `panic!`/`unwrap` in Rust return `Option`.
`u32` values are modelled as `Nat`; the one place where 32-bit overflow is
possible (`min_image_count + 1`) reduces modulo `2^32`.
-/

namespace vk

/-- Numeric raw value of `vk::Format` (an `i32` newtype in ash). -/
structure Format where
  raw : Int
deriving DecidableEq, Repr

/-- The `VK_FORMAT_R8G8B8A8_UNORM` format (raw value 37). -/
def Format.R8G8B8A8_UNORM : Format := ⟨37⟩

/-- The `VK_FORMAT_B8G8R8A8_UNORM` format (raw value 44), used as a non-preferred format. -/
def Format.B8G8R8A8_UNORM : Format := ⟨44⟩

/-- Numeric raw value of `vk::ColorSpaceKHR`. -/
structure ColorSpaceKHR where
  raw : Int
deriving DecidableEq, Repr

/-- The `VK_COLOR_SPACE_SRGB_NONLINEAR_KHR` color space (raw value 0). -/
def ColorSpaceKHR.SRGB_NONLINEAR : ColorSpaceKHR := ⟨0⟩

/-- A color space distinct from `SRGB_NONLINEAR`, for tests (raw value 1000104001). -/
def ColorSpaceKHR.DISPLAY_P3_NONLINEAR : ColorSpaceKHR := ⟨1000104001⟩

/-- Numeric raw value of `vk::PresentModeKHR`. -/
structure PresentModeKHR where
  raw : Int
deriving DecidableEq, Repr

/-- The `VK_PRESENT_MODE_IMMEDIATE_KHR` present mode (raw value 0). -/
def PresentModeKHR.IMMEDIATE : PresentModeKHR := ⟨0⟩

/-- The `VK_PRESENT_MODE_MAILBOX_KHR` present mode (raw value 1). -/
def PresentModeKHR.MAILBOX : PresentModeKHR := ⟨1⟩

/-- The `VK_PRESENT_MODE_FIFO_KHR` present mode (raw value 2). -/
def PresentModeKHR.FIFO : PresentModeKHR := ⟨2⟩

/-- A surface format entry as reported by `get_physical_device_surface_formats`:
a pixel format paired with a color space (`vk::SurfaceFormatKHR`). -/
structure SurfaceFormatKHR where
  format : Format
  color_space : ColorSpaceKHR
deriving DecidableEq, Repr

/-- A two-dimensional extent (`vk::Extent2D`); both components are `u32` in the source. -/
structure Extent2D where
  width : Nat
  height : Nat
deriving DecidableEq, Repr

/-- The fields of `vk::SurfaceCapabilitiesKHR` that the program reads. -/
structure SurfaceCapabilitiesKHR where
  current_extent : Extent2D
  min_image_extent : Extent2D
  max_image_extent : Extent2D
  min_image_count : Nat
  max_image_count : Nat
deriving DecidableEq, Repr

/-- Image-sharing mode requested in `vk::SwapchainCreateInfoKHR`. -/
inductive SharingMode where
  | EXCLUSIVE
  | CONCURRENT
deriving DecidableEq, Repr

end vk

/-- Largest `u32` value, `u32::max_value()` in the source: the "undefined extent" sentinel. -/
def U32_MAX : Nat := 4294967295

/-- Modulus of `u32` arithmetic. -/
def U32_MOD : Nat := 4294967296

/-- The constant `WIDTH` from the source: fallback window width. -/
def WIDTH : Nat := 800

/-- The constant `HEIGHT` from the source: fallback window height. -/
def HEIGHT : Nat := 600

/-- The constant `REQUIRED_VALIDATION_LAYERS` from the source. -/
def REQUIRED_VALIDATION_LAYERS : List String := ["VK_LAYER_KHRONOS_validation"]

/-- The constant `DEVICE_EXTENSIONS` from the source. -/
def DEVICE_EXTENSIONS : List String := ["VK_KHR_swapchain"]

/-- One entry of `get_physical_device_queue_family_properties`: the queue count and
whether `queue_flags` contains `vk::QueueFlags::GRAPHICS` (the only flag the program tests). -/
structure QueueFamily where
  queue_count : Nat
  supports_graphics : Bool
deriving DecidableEq, Repr

/-- The `QueueFamilyIndices` struct from the source. -/
structure QueueFamilyIndices where
  graphics_family : Option Nat
  present_family : Option Nat
deriving DecidableEq, Repr

/-- `QueueFamilyIndices::new()`: both indices unset. -/
def QueueFamilyIndices.new : QueueFamilyIndices := ⟨none, none⟩

/-- `QueueFamilyIndices::is_complete()`: both indices are set. -/
def QueueFamilyIndices.is_complete (self : QueueFamilyIndices) : Bool :=
  self.graphics_family.isSome && self.present_family.isSome

/-- The graphics condition tested in the `find_queue_family` loop:
`queue_family.queue_count > 0 && queue_family.queue_flags.contains(vk::QueueFlags::GRAPHICS)`. -/
def qualifies_graphics (f : QueueFamily) : Bool :=
  decide (0 < f.queue_count) && f.supports_graphics

/-- The present condition tested in the `find_queue_family` loop:
`queue_family.queue_count > 0 && is_present_support`, where `is_present_support`
is the per-index surface-support query (`ps`). -/
def qualifies_present (ps : Nat → Bool) (idx : Nat) (f : QueueFamily) : Bool :=
  decide (0 < f.queue_count) && ps idx

/-- First assignment in the loop body of `find_queue_family`: record this index as the
graphics family when the family qualifies. -/
def update_graphics (idx : Nat) (f : QueueFamily) (acc : QueueFamilyIndices) :
    QueueFamilyIndices :=
  if qualifies_graphics f then { acc with graphics_family := some idx } else acc

/-- Second assignment in the loop body of `find_queue_family`: record this index as the
present family when the family qualifies. -/
def update_present (ps : Nat → Bool) (idx : Nat) (f : QueueFamily) (acc : QueueFamilyIndices) :
    QueueFamilyIndices :=
  if qualifies_present ps idx f then { acc with present_family := some idx } else acc

/-- The `for (index, queue_family) in queue_families.iter().enumerate()` loop of
`find_queue_family`: update both indices at the current position, then break as soon
as the accumulated `QueueFamilyIndices` is complete. -/
def find_queue_family_loop (ps : Nat → Bool) :
    List QueueFamily → Nat → QueueFamilyIndices → QueueFamilyIndices
  | [], _, acc => acc
  | f :: rest, idx, acc =>
    let acc2 := update_present ps idx f (update_graphics idx f acc)
    if acc2.is_complete then acc2 else find_queue_family_loop ps rest (idx + 1) acc2

/-- `find_queue_family` over an explicit queue-family list and per-index surface-support
predicate, starting from `QueueFamilyIndices::new()` at index 0. -/
def find_queue_family_core (families : List QueueFamily) (ps : Nat → Bool) :
    QueueFamilyIndices :=
  find_queue_family_loop ps families 0 QueueFamilyIndices.new

/-- What the driver reports for a physical device in this program's queries:
queue-family properties, per-family surface support, device extensions, and surface
capabilities/formats/present-modes for the bound surface. -/
structure PhysicalDevice where
  queue_families : List QueueFamily
  surface_support : Nat → Bool
  available_extensions : List String
  capabilities : vk.SurfaceCapabilitiesKHR
  formats : List vk.SurfaceFormatKHR
  present_modes : List vk.PresentModeKHR

/-- `find_queue_family(instance, physical_device, surface_stuff)` from the source. -/
def find_queue_family (d : PhysicalDevice) : QueueFamilyIndices :=
  find_queue_family_core d.queue_families d.surface_support

/-- The `SwapChainSupportDetails` struct from the source. -/
structure SwapChainSupportDetails where
  capabilities : vk.SurfaceCapabilitiesKHR
  formats : List vk.SurfaceFormatKHR
  present_modes : List vk.PresentModeKHR

/-- `query_swapchain_support`: read back the surface capabilities, formats and
present modes the driver reports for this device/surface pair. -/
def query_swapchain_support (d : PhysicalDevice) : SwapChainSupportDetails :=
  ⟨d.capabilities, d.formats, d.present_modes⟩

/-- `check_device_extension_support`: the set difference
required-extensions minus available-extensions is empty, i.e. every required
device extension occurs among the device's available extensions. -/
def check_device_extension_support (d : PhysicalDevice) : Bool :=
  DEVICE_EXTENSIONS.all fun req => d.available_extensions.contains req

/-- `is_device_suitable`: conjunction of queue-family completeness, device-extension
support, and swapchain adequacy — the swapchain query runs only when extension
support holds (mirroring the `if is_device_extension_supported` guard). -/
def is_device_suitable (d : PhysicalDevice) (indices : QueueFamilyIndices) : Bool :=
  let is_queue_family_supported := indices.is_complete
  let is_device_extension_supported := check_device_extension_support d
  let is_swapchain_adequate :=
    if is_device_extension_supported then
      let swapchain_support := query_swapchain_support d
      !swapchain_support.formats.isEmpty && !swapchain_support.present_modes.isEmpty
    else false
  is_queue_family_supported && is_device_extension_supported && is_swapchain_adequate

/-- `pick_physical_device`: scan the enumerated devices in order, compute the queue
family indices for each, and return the first suitable device with its indices.
The `panic!("No suitable physical devices")` (also reached when the enumeration is
empty) is modelled as `none`. -/
def pick_physical_device :
    List PhysicalDevice → Option (PhysicalDevice × QueueFamilyIndices)
  | [] => none
  | d :: rest =>
    let indices := find_queue_family d
    if is_device_suitable d indices then some (d, indices) else pick_physical_device rest

/-- The loop condition in `choose_swapchain_format`:
`format == R8G8B8A8_UNORM && color_space == SRGB_NONLINEAR`. -/
def is_preferred_format (f : vk.SurfaceFormatKHR) : Bool :=
  decide (f.format = vk.Format.R8G8B8A8_UNORM) &&
    decide (f.color_space = vk.ColorSpaceKHR.SRGB_NONLINEAR)

/-- `choose_swapchain_format`: return the first reported entry matching the preferred
format/color-space pair; otherwise fall back to `available_formats.first().unwrap()`,
whose panic on an empty list is modelled as `none`. -/
def choose_swapchain_format (available_formats : List vk.SurfaceFormatKHR) :
    Option vk.SurfaceFormatKHR :=
  match available_formats.find? is_preferred_format with
  | some f => some f
  | none => available_formats.head?

/-- `choose_swapchain_present_mode`: return `MAILBOX` when present in the reported
list, else `FIFO`; total on every list. -/
def choose_swapchain_present_mode (available_present_modes : List vk.PresentModeKHR) :
    vk.PresentModeKHR :=
  match available_present_modes.find? (fun m => decide (m = vk.PresentModeKHR.MAILBOX)) with
  | some m => m
  | none => vk.PresentModeKHR.FIFO

/-- `choose_swap_extent`: if `current_extent.width != u32::max_value()` return the
current extent verbatim; otherwise clamp `WIDTH`/`HEIGHT` per axis, computing
`min_image_extent.max(requested).min(max_image_extent)` componentwise. -/
def choose_swap_extent (capabilities : vk.SurfaceCapabilitiesKHR) : vk.Extent2D :=
  if capabilities.current_extent.width ≠ U32_MAX then
    capabilities.current_extent
  else
    { width := Nat.min (Nat.max capabilities.min_image_extent.width WIDTH)
        capabilities.max_image_extent.width,
      height := Nat.min (Nat.max capabilities.min_image_extent.height HEIGHT)
        capabilities.max_image_extent.height }

/-- The image-count computation at the top of `create_swapchain`:
`min_image_count + 1` (a `u32` addition, hence the modulus), clamped down by
`max_image_count` when that bound is positive. -/
def swapchain_image_count (capabilities : vk.SurfaceCapabilitiesKHR) : Nat :=
  let image_count := (capabilities.min_image_count + 1) % U32_MOD
  if 0 < capabilities.max_image_count then
    Nat.min image_count capabilities.max_image_count
  else image_count

/-- The sharing-mode block of `create_swapchain`: when the two `Option<u32>` family
indices differ, request `CONCURRENT` sharing with `queue_family_index_count = 2` and
the unwrapped pair of indices (the unwrap's panic on a missing index is modelled as
`none`); when they coincide, request `EXCLUSIVE` sharing with the create-info
defaults (count 0, no index list). -/
def swapchain_sharing (indices : QueueFamilyIndices) :
    Option (vk.SharingMode × Nat × List Nat) :=
  if indices.graphics_family ≠ indices.present_family then
    match indices.graphics_family, indices.present_family with
    | some g, some p => some (vk.SharingMode.CONCURRENT, 2, [g, p])
    | _, _ => none
  else some (vk.SharingMode.EXCLUSIVE, 0, [])

/-- `check_validation_layers_support`: report failure when the enumerated layer list
is empty, or when some required validation layer has no matching entry in it. -/
def check_validation_layers_support (layer_properties : List String) : Bool :=
  if layer_properties.length ≤ 0 then false
  else
    REQUIRED_VALIDATION_LAYERS.all fun required_layer_name =>
      (layer_properties.find? (fun property => decide (required_layer_name = property))).isSome

/-- The fatal-abort condition of `create_instance`: it panics exactly when
`check_validation_layers_support` fails. The available instance extensions are a
parameter of the environment; the source performs no availability check on them,
so they do not occur in the body. -/
def create_instance_aborts (available_layers : List String)
    (available_instance_extensions : List String) : Bool :=
  !check_validation_layers_support available_layers

/-- The fields of `VulkanApp` that `Drop` reads, with driver handles as numbers.
`device` and `instance` are destroyed through loaders without a handle argument. -/
structure VulkanApp where
  swapchain_framebuffers : List Nat
  graphics_pipeline : Nat
  pipeline_layout : Nat
  render_pass : Nat
  swapchain_imageviews : List Nat
  swapchain : Nat
  surface : Nat
  debug_messenger : Nat

/-- One driver `destroy_*` call observed during teardown. -/
inductive DestroyEvent where
  | framebuffer (handle : Nat)
  | pipeline (handle : Nat)
  | pipelineLayout (handle : Nat)
  | renderPass (handle : Nat)
  | imageView (handle : Nat)
  | swapchain (handle : Nat)
  | device
  | surface (handle : Nat)
  | debugMessenger (handle : Nat)
  | vkInstance
deriving DecidableEq, Repr

/-- The body of `impl Drop for VulkanApp`: the exact sequence of destroy calls it
issues, in program order. -/
def VulkanApp.drop (app : VulkanApp) : List DestroyEvent :=
  app.swapchain_framebuffers.map DestroyEvent.framebuffer
    ++ [DestroyEvent.pipeline app.graphics_pipeline,
        DestroyEvent.pipelineLayout app.pipeline_layout,
        DestroyEvent.renderPass app.render_pass]
    ++ app.swapchain_imageviews.map DestroyEvent.imageView
    ++ [DestroyEvent.swapchain app.swapchain,
        DestroyEvent.device,
        DestroyEvent.surface app.surface,
        DestroyEvent.debugMessenger app.debug_messenger,
        DestroyEvent.vkInstance]

/-- Event `a` occurs strictly before event `b` in the destroy sequence `l`. -/
def destroyedBefore (l : List DestroyEvent) (a b : DestroyEvent) : Prop :=
  [a, b].Sublist l

/-! Helper lemmas about the `find_queue_family` loop. -/

lemma update_graphics_graphics (idx : Nat) (f : QueueFamily) (acc : QueueFamilyIndices) :
    (update_graphics idx f acc).graphics_family =
      if qualifies_graphics f then some idx else acc.graphics_family := by
  unfold update_graphics; split <;> rfl

lemma update_graphics_present (idx : Nat) (f : QueueFamily) (acc : QueueFamilyIndices) :
    (update_graphics idx f acc).present_family = acc.present_family := by
  unfold update_graphics; split <;> rfl

lemma update_present_present (ps : Nat → Bool) (idx : Nat) (f : QueueFamily)
    (acc : QueueFamilyIndices) :
    (update_present ps idx f acc).present_family =
      if qualifies_present ps idx f then some idx else acc.present_family := by
  unfold update_present; split <;> rfl

lemma update_present_graphics (ps : Nat → Bool) (idx : Nat) (f : QueueFamily)
    (acc : QueueFamilyIndices) :
    (update_present ps idx f acc).graphics_family = acc.graphics_family := by
  unfold update_present; split <;> rfl

lemma loop_graphics_sound (ps : Nat → Bool) (P : Nat → Prop) :
    ∀ (l : List QueueFamily) (idx : Nat) (acc : QueueFamilyIndices),
    (∀ g, acc.graphics_family = some g → P g) →
    (∀ k, (hk : k < l.length) → qualifies_graphics l[k] = true → P (idx + k)) →
    ∀ g, (find_queue_family_loop ps l idx acc).graphics_family = some g → P g := by
  intro l
  induction l with
  | nil => intro idx acc hacc _ g hres; exact hacc g hres
  | cons f rest ih =>
    intro idx acc hacc hl g hres
    simp only [find_queue_family_loop] at hres
    have hacc2 : ∀ g,
        (update_present ps idx f (update_graphics idx f acc)).graphics_family = some g → P g := by
      intro g hg
      rw [update_present_graphics, update_graphics_graphics] at hg
      by_cases hq : qualifies_graphics f = true
      · rw [if_pos hq] at hg
        have hgi : idx = g := by injection hg
        subst hgi
        have := hl 0 (by simp) (by simpa using hq)
        simpa using this
      · rw [if_neg hq] at hg; exact hacc g hg
    by_cases hc : (update_present ps idx f (update_graphics idx f acc)).is_complete = true
    · rw [if_pos hc] at hres; exact hacc2 g hres
    · rw [if_neg hc] at hres
      refine ih (idx + 1) _ hacc2 ?_ g hres
      intro k hk hq
      have h2 := hl (k + 1) (by simpa using Nat.succ_lt_succ hk) (by simpa using hq)
      have he : idx + (k + 1) = idx + 1 + k := by omega
      rwa [he] at h2

lemma loop_present_sound (ps : Nat → Bool) (P : Nat → Prop) :
    ∀ (l : List QueueFamily) (idx : Nat) (acc : QueueFamilyIndices),
    (∀ p, acc.present_family = some p → P p) →
    (∀ k, (hk : k < l.length) → qualifies_present ps (idx + k) l[k] = true → P (idx + k)) →
    ∀ p, (find_queue_family_loop ps l idx acc).present_family = some p → P p := by
  intro l
  induction l with
  | nil => intro idx acc hacc _ p hres; exact hacc p hres
  | cons f rest ih =>
    intro idx acc hacc hl p hres
    simp only [find_queue_family_loop] at hres
    have hacc2 : ∀ p,
        (update_present ps idx f (update_graphics idx f acc)).present_family = some p → P p := by
      intro p hp
      rw [update_present_present, update_graphics_present] at hp
      by_cases hq : qualifies_present ps idx f = true
      · rw [if_pos hq] at hp
        have hpi : idx = p := by injection hp
        subst hpi
        have := hl 0 (by simp) (by simpa using hq)
        simpa using this
      · rw [if_neg hq] at hp; exact hacc p hp
    by_cases hc : (update_present ps idx f (update_graphics idx f acc)).is_complete = true
    · rw [if_pos hc] at hres; exact hacc2 p hres
    · rw [if_neg hc] at hres
      refine ih (idx + 1) _ hacc2 ?_ p hres
      intro k hk hq
      have he : idx + 1 + k = idx + (k + 1) := by omega
      rw [he]
      refine hl (k + 1) (by simpa using Nat.succ_lt_succ hk) ?_
      rw [← he]
      simpa using hq

lemma loop_graphics_none (ps : Nat → Bool) :
    ∀ (l : List QueueFamily) (idx : Nat) (acc : QueueFamilyIndices),
    (find_queue_family_loop ps l idx acc).graphics_family = none →
    acc.graphics_family = none ∧
      ∀ k, (hk : k < l.length) → qualifies_graphics l[k] = false := by
  intro l
  induction l with
  | nil =>
    intro idx acc hres
    refine ⟨hres, ?_⟩
    intro k hk; simp at hk
  | cons f rest ih =>
    intro idx acc hres
    simp only [find_queue_family_loop] at hres
    by_cases hc : (update_present ps idx f (update_graphics idx f acc)).is_complete = true
    · rw [if_pos hc] at hres
      exact absurd hc (by simp [QueueFamilyIndices.is_complete, update_present_graphics,
        update_graphics_graphics] at hres ⊢; simp [hres])
    · rw [if_neg hc] at hres
      obtain ⟨hacc2, hrest⟩ := ih (idx + 1) _ hres
      rw [update_present_graphics, update_graphics_graphics] at hacc2
      have hqf : qualifies_graphics f = false := by
        by_cases hq : qualifies_graphics f = true
        · rw [if_pos hq] at hacc2; exact absurd hacc2 (by simp)
        · simpa using hq
      have hag : acc.graphics_family = none := by
        rwa [if_neg (by simp [hqf])] at hacc2
      refine ⟨hag, ?_⟩
      intro k hk
      match k with
      | 0 => simpa using hqf
      | k + 1 =>
        have hk2 : k < rest.length := by simpa using hk
        simpa using hrest k hk2

lemma loop_graphics_none_of (ps : Nat → Bool) :
    ∀ (l : List QueueFamily) (idx : Nat) (acc : QueueFamilyIndices),
    acc.graphics_family = none →
    (∀ k, (hk : k < l.length) → qualifies_graphics l[k] = false) →
    (find_queue_family_loop ps l idx acc).graphics_family = none := by
  intro l
  induction l with
  | nil => intro idx acc hacc _; exact hacc
  | cons f rest ih =>
    intro idx acc hacc hl
    simp only [find_queue_family_loop]
    have hqf : qualifies_graphics f = false := by simpa using hl 0 (by simp)
    have hacc2 : (update_present ps idx f (update_graphics idx f acc)).graphics_family = none := by
      rw [update_present_graphics, update_graphics_graphics, if_neg (by simp [hqf])]
      exact hacc
    have hc : (update_present ps idx f (update_graphics idx f acc)).is_complete = false := by
      simp [QueueFamilyIndices.is_complete, hacc2]
    rw [if_neg (by simp [hc])]
    refine ih (idx + 1) _ hacc2 ?_
    intro k hk
    have hk2 : k + 1 < (f :: rest).length := by simpa using Nat.succ_lt_succ hk
    simpa using hl (k + 1) hk2

lemma loop_present_none (ps : Nat → Bool) :
    ∀ (l : List QueueFamily) (idx : Nat) (acc : QueueFamilyIndices),
    (find_queue_family_loop ps l idx acc).present_family = none →
    acc.present_family = none ∧
      ∀ k, (hk : k < l.length) → qualifies_present ps (idx + k) l[k] = false := by
  intro l
  induction l with
  | nil =>
    intro idx acc hres
    refine ⟨hres, ?_⟩
    intro k hk; simp at hk
  | cons f rest ih =>
    intro idx acc hres
    simp only [find_queue_family_loop] at hres
    by_cases hc : (update_present ps idx f (update_graphics idx f acc)).is_complete = true
    · rw [if_pos hc] at hres
      exact absurd hc (by simp [QueueFamilyIndices.is_complete, update_present_present,
        update_graphics_present] at hres ⊢; simp [hres])
    · rw [if_neg hc] at hres
      obtain ⟨hacc2, hrest⟩ := ih (idx + 1) _ hres
      rw [update_present_present, update_graphics_present] at hacc2
      have hqf : qualifies_present ps idx f = false := by
        by_cases hq : qualifies_present ps idx f = true
        · rw [if_pos hq] at hacc2; exact absurd hacc2 (by simp)
        · simpa using hq
      have hap : acc.present_family = none := by
        rwa [if_neg (by simp [hqf])] at hacc2
      refine ⟨hap, ?_⟩
      intro k hk
      match k with
      | 0 => simpa using hqf
      | k + 1 =>
        have hk2 : k < rest.length := by simpa using hk
        have := hrest k hk2
        have he : idx + 1 + k = idx + (k + 1) := by omega
        rw [he] at this
        simpa using this

lemma loop_present_none_of (ps : Nat → Bool) :
    ∀ (l : List QueueFamily) (idx : Nat) (acc : QueueFamilyIndices),
    acc.present_family = none →
    (∀ k, (hk : k < l.length) → qualifies_present ps (idx + k) l[k] = false) →
    (find_queue_family_loop ps l idx acc).present_family = none := by
  intro l
  induction l with
  | nil => intro idx acc hacc _; exact hacc
  | cons f rest ih =>
    intro idx acc hacc hl
    simp only [find_queue_family_loop]
    have hqf : qualifies_present ps idx f = false := by simpa using hl 0 (by simp)
    have hacc2 : (update_present ps idx f (update_graphics idx f acc)).present_family = none := by
      rw [update_present_present, update_graphics_present, if_neg (by simp [hqf])]
      exact hacc
    have hc : (update_present ps idx f (update_graphics idx f acc)).is_complete = false := by
      simp [QueueFamilyIndices.is_complete, hacc2]
    rw [if_neg (by simp [hc])]
    refine ih (idx + 1) _ hacc2 ?_
    intro k hk
    have hk2 : k + 1 < (f :: rest).length := by simpa using Nat.succ_lt_succ hk
    have := hl (k + 1) hk2
    have he : idx + (k + 1) = idx + 1 + k := by omega
    rw [he] at this
    simpa using this

/-- The synthetic two-family device refuting the smallest-index claim: both
families offer queues and graphics, and only family 1 can present. -/
def families_overlap : List QueueFamily := [⟨1, true⟩, ⟨1, true⟩]

/-- Surface support for `families_overlap`: only family 1 presents. -/
def present_overlap : Nat → Bool := fun i => decide (i = 1)

/-- C1 counterexample: on a device whose families 0 and 1 both support graphics
while only family 1 presents, `find_queue_family` returns graphics index 1,
although the smallest graphics-capable index among the scanned families is 0
(the scan reached index 1, so index 0 was scanned). -/
theorem find_queue_family_not_smallest :
    (find_queue_family_core families_overlap present_overlap).graphics_family = some 1 ∧
    List.findIdx? qualifies_graphics families_overlap = some 0 ∧
    (find_queue_family_core families_overlap present_overlap).graphics_family ≠
      List.findIdx? qualifies_graphics families_overlap := by
  decide

/-- C1 (amended): `find_queue_family` scans the families in index order,
overwriting the recorded graphics index at every scanned graphics-capable family
and, independently, the present index at every scanned present-capable family,
and stops as soon as both are set. Hence every returned index denotes a family
with the corresponding capability (a valid position in the list), and an index
is returned for a role if and only if some family qualifies for that role; the
returned index is the last qualifying one scanned, not in general the smallest. -/
theorem find_queue_family_characterization (families : List QueueFamily) (ps : Nat → Bool) :
    (∀ g, (find_queue_family_core families ps).graphics_family = some g →
      ∃ hg : g < families.length, qualifies_graphics families[g] = true) ∧
    (∀ p, (find_queue_family_core families ps).present_family = some p →
      ∃ hp : p < families.length, qualifies_present ps p families[p] = true) ∧
    ((find_queue_family_core families ps).graphics_family = none ↔
      ∀ k, (hk : k < families.length) → qualifies_graphics families[k] = false) ∧
    ((find_queue_family_core families ps).present_family = none ↔
      ∀ k, (hk : k < families.length) → qualifies_present ps k families[k] = false) := by
  refine ⟨?_, ?_, ⟨?_, ?_⟩, ⟨?_, ?_⟩⟩
  · intro g hg
    refine loop_graphics_sound ps
      (fun g => ∃ hg : g < families.length, qualifies_graphics families[g] = true)
      families 0 QueueFamilyIndices.new ?_ ?_ g hg
    · intro g h; simp [QueueFamilyIndices.new] at h
    · intro k hk hq
      have he : 0 + k = k := by omega
      rw [he]
      exact ⟨hk, hq⟩
  · intro p hp
    refine loop_present_sound ps
      (fun p => ∃ hp : p < families.length, qualifies_present ps p families[p] = true)
      families 0 QueueFamilyIndices.new ?_ ?_ p hp
    · intro p h; simp [QueueFamilyIndices.new] at h
    · intro k hk hq
      have he : 0 + k = k := by omega
      rw [he] at hq ⊢
      exact ⟨hk, hq⟩
  · intro hnone k hk
    exact (loop_graphics_none ps families 0 QueueFamilyIndices.new hnone).2 k hk
  · intro hall
    exact loop_graphics_none_of ps families 0 QueueFamilyIndices.new rfl hall
  · intro hnone k hk
    have := (loop_present_none ps families 0 QueueFamilyIndices.new hnone).2 k hk
    have he : 0 + k = k := by omega
    rwa [he] at this
  · intro hall
    refine loop_present_none_of ps families 0 QueueFamilyIndices.new rfl ?_
    intro k hk
    have he : 0 + k = k := by omega
    rw [he]
    exact hall k hk

/-- The spec's synthetic three-family device: family 1 supports graphics,
family 2 supports presentation. -/
def families_demo : List QueueFamily := [⟨1, false⟩, ⟨1, true⟩, ⟨1, false⟩]

/-- Surface support for `families_demo`: only family 2 presents. -/
def present_demo : Nat → Bool := fun i => decide (i = 2)

/-- Witness for the amended C1 theorem at the spec's synthetic device, where the
resolver returns graphics index 1 and present index 2. -/
theorem find_queue_family_characterization_inst :
    (∃ hg : 1 < families_demo.length, qualifies_graphics families_demo[1] = true) ∧
    (∃ hp : 2 < families_demo.length,
      qualifies_present present_demo 2 families_demo[2] = true) :=
  ⟨(find_queue_family_characterization families_demo present_demo).1 1 (by decide),
   (find_queue_family_characterization families_demo present_demo).2.1 2 (by decide)⟩

/-- The preferred format/color-space pair of `choose_swapchain_format`. -/
def preferred_surface_format : vk.SurfaceFormatKHR :=
  ⟨vk.Format.R8G8B8A8_UNORM, vk.ColorSpaceKHR.SRGB_NONLINEAR⟩

lemma is_preferred_format_iff (f : vk.SurfaceFormatKHR) :
    is_preferred_format f = true ↔ f = preferred_surface_format := by
  cases f with
  | mk fmt cs => simp [is_preferred_format, preferred_surface_format]

/-- C3: format selection returns the preferred 8-bit RGBA unorm / non-linear sRGB
pair whenever it occurs anywhere in the reported list, and otherwise the first
element of the list, for every non-empty list. -/
theorem choose_swapchain_format_spec (l : List vk.SurfaceFormatKHR) (hne : l ≠ []) :
    (preferred_surface_format ∈ l →
      choose_swapchain_format l = some preferred_surface_format) ∧
    (preferred_surface_format ∉ l → choose_swapchain_format l = l.head?) := by
  constructor
  · intro hmem
    have hsome : (l.find? is_preferred_format).isSome :=
      List.find?_isSome.mpr ⟨preferred_surface_format, hmem, by decide⟩
    obtain ⟨x, hx⟩ := Option.isSome_iff_exists.mp hsome
    have hxp : x = preferred_surface_format := (is_preferred_format_iff x).mp (List.find?_some hx)
    subst hxp
    simp [choose_swapchain_format, hx]
  · intro hnot
    have hnone : l.find? is_preferred_format = none :=
      List.find?_eq_none.mpr fun x hxl hpx =>
        hnot (by rwa [(is_preferred_format_iff x).mp hpx] at hxl)
    simp [choose_swapchain_format, hnone]

/-- A reported surface format distinct from the preferred pair. -/
def fallback_format : vk.SurfaceFormatKHR :=
  ⟨vk.Format.B8G8R8A8_UNORM, vk.ColorSpaceKHR.SRGB_NONLINEAR⟩

/-- Witness for C3: a list containing the preferred pair selects it even when it is
not first, and a singleton list lacking it falls back to its first element. -/
theorem choose_swapchain_format_spec_inst :
    choose_swapchain_format [fallback_format, preferred_surface_format] =
      some preferred_surface_format ∧
    choose_swapchain_format [fallback_format] = some fallback_format := by
  constructor
  · exact (choose_swapchain_format_spec [fallback_format, preferred_surface_format]
      (by decide)).1 (by decide)
  · have h := (choose_swapchain_format_spec [fallback_format] (by decide)).2 (by decide)
    simpa using h

/-- C4: present-mode selection returns `MAILBOX` for every list containing it and
`FIFO` for every list without it, the empty list included; it never fails. -/
theorem choose_swapchain_present_mode_spec (l : List vk.PresentModeKHR) :
    (vk.PresentModeKHR.MAILBOX ∈ l →
      choose_swapchain_present_mode l = vk.PresentModeKHR.MAILBOX) ∧
    (vk.PresentModeKHR.MAILBOX ∉ l →
      choose_swapchain_present_mode l = vk.PresentModeKHR.FIFO) := by
  constructor
  · intro hmem
    have hsome : (l.find? (fun m => decide (m = vk.PresentModeKHR.MAILBOX))).isSome :=
      List.find?_isSome.mpr ⟨vk.PresentModeKHR.MAILBOX, hmem, by decide⟩
    obtain ⟨x, hx⟩ := Option.isSome_iff_exists.mp hsome
    have hxp : x = vk.PresentModeKHR.MAILBOX := by simpa using List.find?_some hx
    subst hxp
    simp [choose_swapchain_present_mode, hx]
  · intro hnot
    have hnone : l.find? (fun m => decide (m = vk.PresentModeKHR.MAILBOX)) = none :=
      List.find?_eq_none.mpr fun x hxl hpx => hnot (by simp at hpx; rwa [hpx] at hxl)
    simp [choose_swapchain_present_mode, hnone]

/-- Witness for C4: mailbox is selected when offered; FIFO is selected for a list
without mailbox and for the empty list. -/
theorem choose_swapchain_present_mode_spec_inst :
    choose_swapchain_present_mode [vk.PresentModeKHR.IMMEDIATE, vk.PresentModeKHR.MAILBOX] =
      vk.PresentModeKHR.MAILBOX ∧
    choose_swapchain_present_mode [vk.PresentModeKHR.IMMEDIATE] = vk.PresentModeKHR.FIFO ∧
    choose_swapchain_present_mode [] = vk.PresentModeKHR.FIFO :=
  ⟨(choose_swapchain_present_mode_spec _).1 (by decide),
   (choose_swapchain_present_mode_spec [vk.PresentModeKHR.IMMEDIATE]).2 (by decide),
   (choose_swapchain_present_mode_spec []).2 (by decide)⟩

/-- The capabilities refuting the joint-sentinel reading of extent selection: the
current extent has sentinel width but a definite height of 768, so it is not the
undefined sentinel pair, yet the code clamps instead of returning it verbatim. -/
def caps_mixed : vk.SurfaceCapabilitiesKHR :=
  ⟨⟨4294967295, 768⟩, ⟨100, 100⟩, ⟨2000, 2000⟩, 2, 0⟩

/-- C5 counterexample: for a current extent of `(0xFFFFFFFF, 768)` — not the
undefined sentinel extent — with `min=(100,100)` and `max=(2000,2000)`, the code
does not return the current extent verbatim but clamps to `(800, 600)`, because
only the width component is compared against the sentinel. -/
theorem choose_swap_extent_sentinel_refuted :
    caps_mixed.current_extent ≠ (⟨U32_MAX, U32_MAX⟩ : vk.Extent2D) ∧
    choose_swap_extent caps_mixed = ⟨800, 600⟩ ∧
    choose_swap_extent caps_mixed ≠ caps_mixed.current_extent := by
  decide

/-- C5 (amended): extent selection tests only the width component against the
sentinel `0xFFFFFFFF`. When the current width differs from the sentinel the
current extent is returned verbatim regardless of the min/max image extents;
when the current width equals the sentinel — even if the height does not — the
fixed 800×600 request is clamped independently per axis into
`[min_image_extent, max_image_extent]`, so an axis whose bounds enclose the
request yields the requested value. -/
theorem choose_swap_extent_spec (caps : vk.SurfaceCapabilitiesKHR) :
    (caps.current_extent.width ≠ U32_MAX → choose_swap_extent caps = caps.current_extent) ∧
    (caps.current_extent.width = U32_MAX →
      (choose_swap_extent caps).width =
        Nat.min (Nat.max caps.min_image_extent.width WIDTH) caps.max_image_extent.width ∧
      (choose_swap_extent caps).height =
        Nat.min (Nat.max caps.min_image_extent.height HEIGHT) caps.max_image_extent.height ∧
      (caps.min_image_extent.width ≤ WIDTH → WIDTH ≤ caps.max_image_extent.width →
        (choose_swap_extent caps).width = WIDTH) ∧
      (caps.min_image_extent.height ≤ HEIGHT → HEIGHT ≤ caps.max_image_extent.height →
        (choose_swap_extent caps).height = HEIGHT)) := by
  constructor
  · intro h
    unfold choose_swap_extent
    rw [if_pos h]
  · intro h
    unfold choose_swap_extent
    rw [if_neg (by simp [h])]
    refine ⟨rfl, rfl, ?_, ?_⟩
    · intro h1 h2
      show Nat.min (Nat.max caps.min_image_extent.width WIDTH) caps.max_image_extent.width = WIDTH
      simp only [Nat.max_def, Nat.min_def]
      split <;> omega
    · intro h1 h2
      show Nat.min (Nat.max caps.min_image_extent.height HEIGHT) caps.max_image_extent.height
        = HEIGHT
      simp only [Nat.max_def, Nat.min_def]
      split <;> omega

/-- Capabilities reporting the undefined sentinel extent with bounds 100..2000. -/
def caps_sentinel : vk.SurfaceCapabilitiesKHR :=
  ⟨⟨4294967295, 4294967295⟩, ⟨100, 100⟩, ⟨2000, 2000⟩, 2, 0⟩

/-- Capabilities reporting a definite current extent of 1024×768. -/
def caps_defined : vk.SurfaceCapabilitiesKHR :=
  ⟨⟨1024, 768⟩, ⟨1, 1⟩, ⟨4096, 4096⟩, 2, 0⟩

/-- Witness for the amended C5 theorem: the sentinel capabilities with
`min=(100,100)`, `max=(2000,2000)` yield `(800, 600)`, and a definite current
extent of `(1024, 768)` is returned verbatim. -/
theorem choose_swap_extent_spec_inst :
    choose_swap_extent caps_defined = ⟨1024, 768⟩ ∧
    (choose_swap_extent caps_sentinel).width = 800 ∧
    (choose_swap_extent caps_sentinel).height = 600 :=
  ⟨(choose_swap_extent_spec caps_defined).1 (by decide),
   ((choose_swap_extent_spec caps_sentinel).2 rfl).2.2.1 (by decide) (by decide),
   ((choose_swap_extent_spec caps_sentinel).2 rfl).2.2.2 (by decide) (by decide)⟩

/-- C6: the requested swapchain image count is `min_image_count + 1`, clamped down
to `max_image_count` exactly when that bound is nonzero (zero meaning unbounded)
and exceeded; stated below any 32-bit overflow of the increment. -/
theorem swapchain_image_count_spec (caps : vk.SurfaceCapabilitiesKHR)
    (hof : caps.min_image_count + 1 < U32_MOD) :
    (caps.max_image_count = 0 → swapchain_image_count caps = caps.min_image_count + 1) ∧
    (0 < caps.max_image_count → caps.max_image_count < caps.min_image_count + 1 →
      swapchain_image_count caps = caps.max_image_count) ∧
    (0 < caps.max_image_count → caps.min_image_count + 1 ≤ caps.max_image_count →
      swapchain_image_count caps = caps.min_image_count + 1) := by
  simp only [swapchain_image_count]
  rw [Nat.mod_eq_of_lt hof]
  refine ⟨?_, ?_, ?_⟩
  · intro h
    rw [if_neg (by omega)]
  · intro h1 h2
    rw [if_pos h1]
    exact Nat.min_eq_right (by omega)
  · intro h1 h2
    rw [if_pos h1]
    exact Nat.min_eq_left h2

/-- Capabilities with `min_image_count = 2` and no upper bound. -/
def caps_count_unbounded : vk.SurfaceCapabilitiesKHR :=
  ⟨⟨1024, 768⟩, ⟨1, 1⟩, ⟨4096, 4096⟩, 2, 0⟩

/-- Capabilities with `min_image_count = 2` and `max_image_count = 2`. -/
def caps_count_capped : vk.SurfaceCapabilitiesKHR :=
  ⟨⟨1024, 768⟩, ⟨1, 1⟩, ⟨4096, 4096⟩, 2, 2⟩

/-- Witness for C6 at the spec's test vectors: `min=2, max=0` requests 3 images and
`min=2, max=2` clamps to 2. -/
theorem swapchain_image_count_spec_inst :
    swapchain_image_count caps_count_unbounded = 3 ∧
    swapchain_image_count caps_count_capped = 2 :=
  ⟨(swapchain_image_count_spec caps_count_unbounded (by decide)).1 rfl,
   (swapchain_image_count_spec caps_count_capped (by decide)).2.1 (by decide) (by decide)⟩

/-- C7: for complete queue-family indices, the swapchain create-info requests
concurrent sharing across exactly the graphics and present indices (with
`queue_family_index_count = 2`) when they differ, and exclusive sharing when
they coincide. -/
theorem swapchain_sharing_spec (g p : Nat) :
    (g ≠ p → swapchain_sharing ⟨some g, some p⟩ =
      some (vk.SharingMode.CONCURRENT, 2, [g, p])) ∧
    (g = p → swapchain_sharing ⟨some g, some p⟩ =
      some (vk.SharingMode.EXCLUSIVE, 0, [])) := by
  constructor
  · intro h
    unfold swapchain_sharing
    rw [if_pos (by simp [h])]
  · intro h
    subst h
    unfold swapchain_sharing
    rw [if_neg (by simp)]

/-- Witness for C7 at the spec's examples: distinct families 1 and 2 request
concurrent sharing over `[1, 2]`; the shared family 0 requests exclusive sharing. -/
theorem swapchain_sharing_spec_inst :
    swapchain_sharing ⟨some 1, some 2⟩ = some (vk.SharingMode.CONCURRENT, 2, [1, 2]) ∧
    swapchain_sharing ⟨some 0, some 0⟩ = some (vk.SharingMode.EXCLUSIVE, 0, []) :=
  ⟨(swapchain_sharing_spec 1 2).1 (by decide), (swapchain_sharing_spec 0 0).2 rfl⟩

/-! Helper lemmas about device suitability and selection. -/

lemma is_device_suitable_iff (d : PhysicalDevice) (i : QueueFamilyIndices) :
    is_device_suitable d i = true ↔
      (i.is_complete = true ∧ check_device_extension_support d = true ∧
        d.formats ≠ [] ∧ d.present_modes ≠ []) := by
  simp only [is_device_suitable, query_swapchain_support, Bool.and_eq_true]
  constructor
  · rintro ⟨⟨hq, he⟩, ha⟩
    rw [if_pos he, Bool.and_eq_true] at ha
    refine ⟨hq, he, ?_, ?_⟩
    · simpa using ha.1
    · simpa using ha.2
  · rintro ⟨hq, he, hf, hm⟩
    refine ⟨⟨hq, he⟩, ?_⟩
    rw [if_pos he, Bool.and_eq_true]
    constructor
    · simpa using hf
    · simpa using hm

lemma pick_physical_device_none_iff (ds : List PhysicalDevice) :
    pick_physical_device ds = none ↔
      ∀ d ∈ ds, is_device_suitable d (find_queue_family d) = false := by
  induction ds with
  | nil => simp [pick_physical_device]
  | cons d rest ih =>
    by_cases h : is_device_suitable d (find_queue_family d) = true
    · simp [pick_physical_device, h]
    · have hf : is_device_suitable d (find_queue_family d) = false := by simpa using h
      simp [pick_physical_device, hf, ih]

lemma pick_physical_device_some (ds : List PhysicalDevice)
    (d : PhysicalDevice) (i : QueueFamilyIndices)
    (hres : pick_physical_device ds = some (d, i)) :
    i = find_queue_family d ∧ is_device_suitable d i = true ∧
      ∃ pre post, ds = pre ++ d :: post ∧
        ∀ e ∈ pre, is_device_suitable e (find_queue_family e) = false := by
  induction ds with
  | nil => simp [pick_physical_device] at hres
  | cons e rest ih =>
    by_cases h : is_device_suitable e (find_queue_family e) = true
    · rw [pick_physical_device, if_pos h] at hres
      have hde : e = d ∧ find_queue_family e = i := by
        have := Option.some.inj hres
        exact ⟨congrArg Prod.fst this, congrArg Prod.snd this⟩
      obtain ⟨hde1, hde2⟩ := hde
      subst hde1
      subst hde2
      exact ⟨rfl, h, [], rest, rfl, by simp⟩
    · rw [pick_physical_device, if_neg h] at hres
      obtain ⟨h1, h2, pre, post, hsplit, hpre⟩ := ih hres
      refine ⟨h1, h2, e :: pre, post, by simp [hsplit], ?_⟩
      intro x hx
      rcases List.mem_cons.mp hx with hx | hx
      · subst hx; simpa using h
      · exact hpre x hx

/-- C2: accelerator selection returns the first enumerated device satisfying the
suitability conjunction — queue-family completeness, required device-extension
support, and swapchain adequacy (at least one format and one present mode,
queried only when extension support holds) — with the queue-family indices it
computed for that device, and reports failure exactly when the enumeration is
empty or no candidate passes. -/
theorem pick_physical_device_spec (ds : List PhysicalDevice) :
    (pick_physical_device ds = none ↔
      ∀ d ∈ ds, is_device_suitable d (find_queue_family d) = false) ∧
    (∀ d i, pick_physical_device ds = some (d, i) →
      i = find_queue_family d ∧ is_device_suitable d i = true ∧
        ∃ pre post, ds = pre ++ d :: post ∧
          ∀ e ∈ pre, is_device_suitable e (find_queue_family e) = false) ∧
    (∀ d i, is_device_suitable d i = true ↔
      (i.is_complete = true ∧ check_device_extension_support d = true ∧
        d.formats ≠ [] ∧ d.present_modes ≠ [])) ∧
    (∀ (d : PhysicalDevice) (i : QueueFamilyIndices),
      check_device_extension_support d = false → is_device_suitable d i = false) := by
  refine ⟨pick_physical_device_none_iff ds,
    fun d i h => pick_physical_device_some ds d i h,
    fun d i => is_device_suitable_iff d i, ?_⟩
  intro d i h
  rw [← Bool.not_eq_true]
  intro hc
  rw [is_device_suitable_iff] at hc
  rw [hc.2.1] at h
  exact absurd h (by simp)

/-- A synthetic device failing every suitability predicate: no present support,
no device extensions, no formats, no present modes. -/
def device_unsuitable : PhysicalDevice :=
  { queue_families := [⟨1, true⟩],
    surface_support := fun _ => false,
    available_extensions := [],
    capabilities := caps_defined,
    formats := [],
    present_modes := [] }

/-- A synthetic device passing every suitability predicate. -/
def device_suitable : PhysicalDevice :=
  { queue_families := [⟨1, true⟩],
    surface_support := fun _ => true,
    available_extensions := ["VK_KHR_swapchain"],
    capabilities := caps_defined,
    formats := [fallback_format],
    present_modes := [vk.PresentModeKHR.FIFO] }

/-- Witness for C2: scanning an unsuitable device followed by a suitable one
selects the second (which therefore satisfies the suitability conjunction), and
the scan over only the unsuitable device fails. -/
theorem pick_physical_device_spec_inst :
    is_device_suitable device_suitable (find_queue_family device_suitable) = true ∧
    pick_physical_device [device_unsuitable] = none :=
  ⟨((pick_physical_device_spec [device_unsuitable, device_suitable]).2.1 device_suitable
      (find_queue_family device_suitable) rfl).2.1,
   (pick_physical_device_spec [device_unsuitable]).1.mpr (by
      intro d hd
      simp only [List.mem_singleton] at hd
      subst hd
      rfl)⟩

lemma check_validation_layers_support_iff (layers : List String) :
    check_validation_layers_support layers = true ↔
      ∀ r ∈ REQUIRED_VALIDATION_LAYERS, r ∈ layers := by
  unfold check_validation_layers_support
  split
  · rename_i h
    have hnil : layers = [] := by
      cases layers with
      | nil => rfl
      | cons a l => simp at h
    subst hnil
    simp [REQUIRED_VALIDATION_LAYERS]
  · rw [List.all_eq_true]
    constructor
    · intro h r hr
      obtain ⟨x, hx, hpx⟩ := List.find?_isSome.mp (h r hr)
      have : r = x := by simpa using hpx
      subst this
      exact hx
    · intro h r hr
      exact List.find?_isSome.mpr ⟨r, h r hr, by simp⟩

/-- C9: instance creation aborts fatally if and only if some required validation
layer is missing from the enumerated instance layers (an empty enumeration counts
as missing them); the decision never consults the available instance extensions,
so no analogous check exists for them. -/
theorem create_instance_layer_check_spec (available_layers avail_exts : List String) :
    (create_instance_aborts available_layers avail_exts = true ↔
      ∃ r ∈ REQUIRED_VALIDATION_LAYERS, r ∉ available_layers) ∧
    (∀ other_exts, create_instance_aborts available_layers avail_exts =
      create_instance_aborts available_layers other_exts) := by
  constructor
  · unfold create_instance_aborts
    cases hck : check_validation_layers_support available_layers with
    | true =>
      have hall : ∀ r ∈ REQUIRED_VALIDATION_LAYERS, r ∈ available_layers :=
        (check_validation_layers_support_iff available_layers).mp hck
      simp only [Bool.not_true]
      constructor
      · intro h
        exact absurd h (by simp)
      · rintro ⟨r, hr, hnr⟩
        exact absurd (hall r hr) hnr
    | false =>
      have hnall : ¬ ∀ r ∈ REQUIRED_VALIDATION_LAYERS, r ∈ available_layers := by
        intro hall
        rw [← check_validation_layers_support_iff available_layers, hck] at hall
        exact absurd hall (by simp)
      simp only [Bool.not_false]
      constructor
      · intro _
        by_contra hne
        push_neg at hne
        exact hnall hne
      · intro _
        trivial
  · intro other
    rfl

/-- Witness for C9: with no instance layers enumerated, the required validation
layer is absent and instance creation aborts. -/
theorem create_instance_layer_check_spec_inst :
    create_instance_aborts [] [] = true :=
  (create_instance_layer_check_spec [] []).1.mpr
    ⟨"VK_LAYER_KHRONOS_validation", by decide, by decide⟩

/-- C10: format selection is partial exactly on the empty list — it returns `none`
there (the `unwrap` panic) and a value on every non-empty list — and the
non-emptiness precondition is established upstream: every device accepted by the
suitability predicate, in particular every device returned by
`pick_physical_device`, reports at least one surface format (and one present
mode), so format selection over its formats succeeds. -/
theorem choose_swapchain_format_partiality :
    choose_swapchain_format [] = none ∧
    (∀ l : List vk.SurfaceFormatKHR, l ≠ [] → (choose_swapchain_format l).isSome = true) ∧
    (∀ (d : PhysicalDevice) (i : QueueFamilyIndices), is_device_suitable d i = true →
      d.formats ≠ [] ∧ d.present_modes ≠ [] ∧
        (choose_swapchain_format d.formats).isSome = true) ∧
    (∀ (ds : List PhysicalDevice) (d : PhysicalDevice) (i : QueueFamilyIndices),
      pick_physical_device ds = some (d, i) →
        (choose_swapchain_format d.formats).isSome = true) := by
  have hne : ∀ l : List vk.SurfaceFormatKHR, l ≠ [] →
      (choose_swapchain_format l).isSome = true := by
    intro l hl
    cases hf : l.find? is_preferred_format with
    | some f => simp [choose_swapchain_format, hf]
    | none =>
      cases l with
      | nil => exact absurd rfl hl
      | cons a as => simp [choose_swapchain_format, hf]
  refine ⟨rfl, hne, ?_, ?_⟩
  · intro d i h
    rw [is_device_suitable_iff] at h
    exact ⟨h.2.2.1, h.2.2.2, hne _ h.2.2.1⟩
  · intro ds d i h
    have h2 := (pick_physical_device_some ds d i h).2.1
    rw [is_device_suitable_iff] at h2
    exact hne _ h2.2.2.1

/-- Witness for C10: a singleton format list yields a value, and so does the
format list of the device selected from a synthetic enumeration. -/
theorem choose_swapchain_format_partiality_inst :
    (choose_swapchain_format [fallback_format]).isSome = true ∧
    (choose_swapchain_format device_suitable.formats).isSome = true :=
  ⟨choose_swapchain_format_partiality.2.1 [fallback_format] (by decide),
   choose_swapchain_format_partiality.2.2.2 [device_unsuitable, device_suitable]
     device_suitable (find_queue_family device_suitable) rfl⟩

/-! Helper lemmas for teardown ordering. -/

lemma pair_sublist_append {α : Type} {a b : α} {l1 l2 : List α}
    (ha : a ∈ l1) (hb : b ∈ l2) : [a, b].Sublist (l1 ++ l2) := by
  have h1 : [a].Sublist l1 := List.singleton_sublist.mpr ha
  have h2 : [b].Sublist l2 := List.singleton_sublist.mpr hb
  simpa using h1.append h2

lemma sublist_extend_left {α : Type} {l m : List α} (r : List α) (h : l.Sublist m) :
    l.Sublist (r ++ m) := by
  simpa using (List.nil_sublist r).append h

lemma vulkan_app_drop_assoc (app : VulkanApp) :
    app.drop =
      app.swapchain_framebuffers.map DestroyEvent.framebuffer ++
        ([DestroyEvent.pipeline app.graphics_pipeline,
          DestroyEvent.pipelineLayout app.pipeline_layout,
          DestroyEvent.renderPass app.render_pass] ++
          (app.swapchain_imageviews.map DestroyEvent.imageView ++
            [DestroyEvent.swapchain app.swapchain,
             DestroyEvent.device,
             DestroyEvent.surface app.surface,
             DestroyEvent.debugMessenger app.debug_messenger,
             DestroyEvent.vkInstance])) := by
  simp [VulkanApp.drop, List.append_assoc]

/-- C8: the teardown sequence of `Drop for VulkanApp` destroys, in order, every
framebuffer, then the graphics pipeline, the pipeline layout, the render pass,
every image view, the swapchain, the logical device, the surface, the debug
messenger, and finally the instance; in particular each resource is destroyed
strictly before every resource it was created from (framebuffers before image
views, render pass and device; pipeline before layout and render pass; device
children before the device; swapchain before the surface; device, surface and
messenger before the instance). -/
theorem vulkan_app_drop_order (app : VulkanApp) :
    (∀ fb ∈ app.swapchain_framebuffers, ∀ iv ∈ app.swapchain_imageviews,
      destroyedBefore app.drop (DestroyEvent.framebuffer fb) (DestroyEvent.imageView iv)) ∧
    (∀ fb ∈ app.swapchain_framebuffers,
      destroyedBefore app.drop (DestroyEvent.framebuffer fb)
        (DestroyEvent.pipeline app.graphics_pipeline)) ∧
    (∀ fb ∈ app.swapchain_framebuffers,
      destroyedBefore app.drop (DestroyEvent.framebuffer fb)
        (DestroyEvent.renderPass app.render_pass)) ∧
    destroyedBefore app.drop (DestroyEvent.pipeline app.graphics_pipeline)
      (DestroyEvent.pipelineLayout app.pipeline_layout) ∧
    destroyedBefore app.drop (DestroyEvent.pipeline app.graphics_pipeline)
      (DestroyEvent.renderPass app.render_pass) ∧
    destroyedBefore app.drop (DestroyEvent.pipelineLayout app.pipeline_layout)
      (DestroyEvent.renderPass app.render_pass) ∧
    (∀ iv ∈ app.swapchain_imageviews,
      destroyedBefore app.drop (DestroyEvent.renderPass app.render_pass)
        (DestroyEvent.imageView iv)) ∧
    (∀ iv ∈ app.swapchain_imageviews,
      destroyedBefore app.drop (DestroyEvent.imageView iv)
        (DestroyEvent.swapchain app.swapchain)) ∧
    (∀ iv ∈ app.swapchain_imageviews,
      destroyedBefore app.drop (DestroyEvent.imageView iv) DestroyEvent.device) ∧
    destroyedBefore app.drop (DestroyEvent.swapchain app.swapchain) DestroyEvent.device ∧
    destroyedBefore app.drop (DestroyEvent.swapchain app.swapchain)
      (DestroyEvent.surface app.surface) ∧
    destroyedBefore app.drop DestroyEvent.device (DestroyEvent.surface app.surface) ∧
    destroyedBefore app.drop DestroyEvent.device DestroyEvent.vkInstance ∧
    destroyedBefore app.drop (DestroyEvent.surface app.surface)
      (DestroyEvent.debugMessenger app.debug_messenger) ∧
    destroyedBefore app.drop (DestroyEvent.surface app.surface) DestroyEvent.vkInstance ∧
    destroyedBefore app.drop (DestroyEvent.debugMessenger app.debug_messenger)
      DestroyEvent.vkInstance ∧
    (∀ fb ∈ app.swapchain_framebuffers,
      destroyedBefore app.drop (DestroyEvent.framebuffer fb) DestroyEvent.device) := by
  simp only [destroyedBefore, vulkan_app_drop_assoc]
  refine ⟨?_, ?_, ?_, ?_, ?_, ?_, ?_, ?_, ?_, ?_, ?_, ?_, ?_, ?_, ?_, ?_, ?_⟩
  · intro fb hfb iv hiv
    exact pair_sublist_append (List.mem_map_of_mem _ hfb)
      (List.mem_append_right _ (List.mem_append_left _ (List.mem_map_of_mem _ hiv)))
  · intro fb hfb
    exact pair_sublist_append (List.mem_map_of_mem _ hfb)
      (List.mem_append_left _ (by simp))
  · intro fb hfb
    exact pair_sublist_append (List.mem_map_of_mem _ hfb)
      (List.mem_append_left _ (by simp))
  · refine sublist_extend_left _ ?_
    exact List.Sublist.cons₂ _ (List.Sublist.cons₂ _ (List.nil_sublist _))
  · refine sublist_extend_left _ ?_
    exact List.Sublist.cons₂ _ (List.Sublist.cons _ (List.Sublist.cons₂ _ (List.nil_sublist _)))
  · refine sublist_extend_left _ ?_
    exact List.Sublist.cons _ (List.Sublist.cons₂ _ (List.Sublist.cons₂ _ (List.nil_sublist _)))
  · intro iv hiv
    refine sublist_extend_left _ ?_
    exact pair_sublist_append (show DestroyEvent.renderPass app.render_pass ∈
        [DestroyEvent.pipeline app.graphics_pipeline,
         DestroyEvent.pipelineLayout app.pipeline_layout,
         DestroyEvent.renderPass app.render_pass] by simp)
      (List.mem_append_left _ (List.mem_map_of_mem _ hiv))
  · intro iv hiv
    refine sublist_extend_left _ (sublist_extend_left _ ?_)
    exact pair_sublist_append (List.mem_map_of_mem _ hiv) (by simp)
  · intro iv hiv
    refine sublist_extend_left _ (sublist_extend_left _ ?_)
    exact pair_sublist_append (List.mem_map_of_mem _ hiv) (by simp)
  · refine sublist_extend_left _ (sublist_extend_left _ (sublist_extend_left _ ?_))
    exact List.Sublist.cons₂ _ (List.Sublist.cons₂ _ (List.nil_sublist _))
  · refine sublist_extend_left _ (sublist_extend_left _ (sublist_extend_left _ ?_))
    exact List.Sublist.cons₂ _
      (List.Sublist.cons _ (List.Sublist.cons₂ _ (List.nil_sublist _)))
  · refine sublist_extend_left _ (sublist_extend_left _ (sublist_extend_left _ ?_))
    exact List.Sublist.cons _
      (List.Sublist.cons₂ _ (List.Sublist.cons₂ _ (List.nil_sublist _)))
  · refine sublist_extend_left _ (sublist_extend_left _ (sublist_extend_left _ ?_))
    exact List.Sublist.cons _ (List.Sublist.cons₂ _ (List.Sublist.cons _
      (List.Sublist.cons _ (List.Sublist.cons₂ _ (List.nil_sublist _)))))
  · refine sublist_extend_left _ (sublist_extend_left _ (sublist_extend_left _ ?_))
    exact List.Sublist.cons _ (List.Sublist.cons _ (List.Sublist.cons₂ _
      (List.Sublist.cons₂ _ (List.nil_sublist _))))
  · refine sublist_extend_left _ (sublist_extend_left _ (sublist_extend_left _ ?_))
    exact List.Sublist.cons _ (List.Sublist.cons _ (List.Sublist.cons₂ _
      (List.Sublist.cons _ (List.Sublist.cons₂ _ (List.nil_sublist _)))))
  · refine sublist_extend_left _ (sublist_extend_left _ (sublist_extend_left _ ?_))
    exact List.Sublist.cons _ (List.Sublist.cons _ (List.Sublist.cons _
      (List.Sublist.cons₂ _ (List.Sublist.cons₂ _ (List.nil_sublist _)))))
  · intro fb hfb
    exact pair_sublist_append (List.mem_map_of_mem _ hfb)
      (List.mem_append_right _ (List.mem_append_right _ (by simp)))

/-- A concrete `VulkanApp` with two framebuffers and two image views. -/
def demo_app : VulkanApp := ⟨[1, 2], 3, 4, 5, [6, 7], 8, 9, 10⟩

/-- Witness for C8 on a concrete application object: a framebuffer is destroyed
before an image view, and an image view before the logical device. -/
theorem vulkan_app_drop_order_inst :
    destroyedBefore demo_app.drop (DestroyEvent.framebuffer 1) (DestroyEvent.imageView 6) ∧
    destroyedBefore demo_app.drop (DestroyEvent.imageView 7) DestroyEvent.device :=
  ⟨(vulkan_app_drop_order demo_app).1 1 (by decide) 6 (by decide),
   (vulkan_app_drop_order demo_app).2.2.2.2.2.2.2.2.1 7 (by decide)⟩
